import Mathlib

/-!
Verification of the lepton streaming JPEG decoder core against its
natural-language specification.  The Rust sources under `src/src/` are
shallowly embedded below: pure functions become Lean functions, the
mutex-guarded byte stream becomes explicit state passing (single-threaded
semantics: a blocking wait is the explicit outcome `blocked`, a Rust panic
the outcome `panicked`), machine integers become `Nat`/`Int` with explicit
wrapping where the Rust code wraps.  Modules of the repository that are not
under `src/` (huffman.rs, parser.rs, marker.rs, error.rs, jpeg.rs,
byte_converter) are modelled from the specification and marked as such.
-/

namespace Lepton

/-! ## src/src/iostream.rs -/

/-- `InputError` from iostream.rs lines 12-17. -/
inductive InputError where
  | streamClosed
  | unexpectedSigAbort (len : Nat)
  | unexpectedEof (len : Nat)
deriving DecidableEq, Repr

/-- Outcome of a reader-side operation.  `ok` carries the bytes read;
`blocked` models a condition-variable wait that no concurrent writer can
satisfy (single-threaded semantics); `panicked` models a Rust panic. -/
inductive IoRes (α : Type) where
  | ok (a : α)
  | err (e : InputError)
  | blocked
  | panicked
deriving DecidableEq, Repr

/-- `StreamBuffer` from iostream.rs lines 468-475: the mutex-protected state
of the shared byte pipe.  `data` is the FIFO queue `Q`. -/
structure StreamBuffer where
  data : List Nat
  target_len : Nat
  eof_written : Bool
  aborted : Bool
  reader_closed : Bool
deriving DecidableEq, Repr

/-- `StreamBuffer::read` (iostream.rs lines 478-490): copy into a caller
destination of length `bufLen` without removing anything from the queue.
The queue is modelled as a list, i.e. a *contiguous* `VecDeque` — the only
layout reachable in this single-threaded embedding, where all bytes are
written by one `extend` on an empty deque before any read and consumption
only pops from the front, so `as_slices().1` stays empty.  On that layout,
when `|Q| < bufLen` the source takes the branch
`buf.clone_from_slice(&data_slices.0[..read_len])` (line 483) with a
source of length `read_len = |Q|` and the full `buf` as destination, and
panics on the slice-length mismatch (`none`); otherwise it copies exactly
`bufLen` bytes. -/
def StreamBuffer.readBuf (sb : StreamBuffer) (bufLen : Nat) :
    Option (List Nat) :=
  if sb.data.length < bufLen then none else some (sb.data.take bufLen)

/-- `StreamBuffer::consume` (iostream.rs lines 492-503): drop up to `len`
bytes from the front of the queue, returning how many were dropped. -/
def StreamBuffer.consume (sb : StreamBuffer) (len : Nat) : StreamBuffer × Nat :=
  if len < sb.data.length then ({ sb with data := sb.data.drop len }, len)
  else ({ sb with data := [] }, sb.data.length)

/-- `StreamBuffer::validate_for_read` (iostream.rs lines 505-518). -/
def StreamBuffer.validate_for_read (sb : StreamBuffer) (require_active : Bool) :
    Option InputError :=
  if sb.reader_closed then some .streamClosed
  else if sb.data.isEmpty || require_active then
    if sb.aborted then some (.unexpectedSigAbort sb.data.length)
    else if sb.eof_written then some (.unexpectedEof sb.data.length)
    else none
  else none

/-- `IoStream::read_internal` (iostream.rs lines 383-398) together with
`lock_for_read` (400-404) and `wait_for_read` (406-419), in single-threaded
semantics: a wait that would be needed and passes validation is `blocked`. -/
def IoStream.read_internal (sb : StreamBuffer) (bufLen min_len : Nat)
    (consume : Bool) : IoRes (List Nat) × StreamBuffer :=
  if min_len > bufLen then (.panicked, sb)
  else
    match sb.validate_for_read false with
    | some e => (.err e, sb)
    | none =>
      if sb.data.length < min_len then
        match sb.validate_for_read true with
        | some e => (.err e, sb)
        | none => (.blocked, sb)
      else
        match sb.readBuf bufLen with
        | none => (.panicked, sb)
        | some out =>
          if consume then (.ok out, (sb.consume out.length).fst)
          else (.ok out, sb)

/-- `IoStream::peek` (iostream.rs lines 352-354). -/
def IoStream.peek (sb : StreamBuffer) (bufLen min_len : Nat) :
    IoRes (List Nat) × StreamBuffer :=
  IoStream.read_internal sb bufLen min_len false

/-- `IoStream::read` (iostream.rs lines 356-358). -/
def IoStream.read (sb : StreamBuffer) (bufLen min_len : Nat) :
    IoRes (List Nat) × StreamBuffer :=
  IoStream.read_internal sb bufLen min_len true

/-- `IoStream::consume` (iostream.rs lines 360-364). -/
def IoStream.consume (sb : StreamBuffer) (len : Nat) : IoRes Nat × StreamBuffer :=
  match sb.validate_for_read false with
  | some e => (.err e, sb)
  | none =>
    if sb.data.length < len then
      match sb.validate_for_read true with
      | some e => (.err e, sb)
      | none => (.blocked, sb)
    else
      let p := sb.consume len
      (.ok p.snd, p.fst)

/-- `Buffer` from iostream.rs lines 536-540: the wrapper's pre-load buffer.
`data` is the fixed-size backing array (capacity = `data.length`). -/
structure PreBuffer where
  data : List Nat
  write_offset : Nat
  read_offset : Nat
deriving DecidableEq, Repr

/-- `Buffer::new` (iostream.rs lines 543-549). -/
def PreBuffer.new (size : Nat) : PreBuffer :=
  ⟨List.replicate size 0, 0, 0⟩

/-- `Buffer::data_len` (iostream.rs lines 551-553). -/
def PreBuffer.data_len (b : PreBuffer) : Nat := b.write_offset - b.read_offset

/-- `Buffer::capacity` (iostream.rs lines 555-557). -/
def PreBuffer.capacity (b : PreBuffer) : Nat := b.data.length

/-- `Buffer::data_slice(Some len)` (iostream.rs lines 564-575).  The caller
always passes `len ≤ data_len`; the panic path is not modelled. -/
def PreBuffer.data_slice (b : PreBuffer) (len : Nat) : List Nat :=
  (b.data.drop b.read_offset).take len

/-- The bytes currently held by the pre-load buffer
(`data_slice(None)`, iostream.rs line 576). -/
def PreBuffer.data_slice_all (b : PreBuffer) : List Nat :=
  (b.data.drop b.read_offset).take (b.write_offset - b.read_offset)

/-- `Buffer::consume` (iostream.rs lines 599-613); the caller always passes
`len ≤ data_len`, so the panic path is not modelled. -/
def PreBuffer.consumeB (b : PreBuffer) (len : Nat) : PreBuffer :=
  if len = b.write_offset - b.read_offset then
    { b with write_offset := 0, read_offset := 0 }
  else
    { b with read_offset := b.read_offset + len }

/-- `InputStream` from iostream.rs lines 33-38: the reader-side wrapper. -/
structure InputStream where
  istream : StreamBuffer
  pre_load_buffer : PreBuffer
  retained_buffer : List Nat
  processed_len : Nat
deriving DecidableEq, Repr

/-- `InputStream::read_internal` (iostream.rs lines 193-234).  `bufLen` is
the length of the caller's destination buffer; the returned list is its
filled prefix. -/
def InputStream.read_internal (s : InputStream) (bufLen : Nat)
    (fill keep consume : Bool) : IoRes (List Nat) × InputStream :=
  if bufLen = 0 then (.ok [], s)
  else if fill && decide (bufLen > s.pre_load_buffer.capacity) then
    -- size_check (iostream.rs lines 249-257)
    (.panicked, s)
  else
    let pa := s.pre_load_buffer.data_len
    let read_len1 := min bufLen pa
    let out1 := s.pre_load_buffer.data_slice read_len1
    let pre1 := if pa > 0 then s.pre_load_buffer.consumeB read_len1
      else s.pre_load_buffer
    if pa = 0 || (fill && decide (pa < bufLen)) then
      let buf_available := bufLen - pa
      match IoStream.read_internal s.istream pre1.capacity
          (if fill then buf_available else 1) consume with
      | (.ok bytes, ist') =>
        let size_to_fill := min buf_available bytes.length
        let out2 := bytes.take size_to_fill
        let pre2 : PreBuffer :=
          { data := bytes ++ pre1.data.drop bytes.length
            write_offset := bytes.length
            read_offset := size_to_fill }
        let out := out1 ++ out2
        (.ok out,
          { istream := ist'
            pre_load_buffer := pre2
            retained_buffer := s.retained_buffer ++ (if keep then out else [])
            processed_len := s.processed_len + out.length })
      | (.err e, ist') =>
        (.err e, { s with istream := ist', pre_load_buffer := pre1 })
      | (.blocked, ist') =>
        (.blocked, { s with istream := ist', pre_load_buffer := pre1 })
      | (.panicked, ist') =>
        (.panicked, { s with istream := ist', pre_load_buffer := pre1 })
    else
      (.ok out1,
        { s with
          pre_load_buffer := pre1
          retained_buffer := s.retained_buffer ++ (if keep then out1 else [])
          processed_len := s.processed_len + out1.length })

/-- `InputStream::read` (iostream.rs lines 79-81). -/
def InputStream.read (s : InputStream) (bufLen : Nat) (fill keep : Bool) :
    IoRes (List Nat) × InputStream :=
  s.read_internal bufLen fill keep true

/-- `InputStream::peek` (iostream.rs lines 75-77). -/
def InputStream.peek (s : InputStream) (bufLen : Nat) (fill : Bool) :
    IoRes (List Nat) × InputStream :=
  s.read_internal bufLen fill false true

/-- `InputStream::read_byte` (iostream.rs lines 58-62). -/
def InputStream.read_byte (s : InputStream) (keep : Bool) :
    IoRes Nat × InputStream :=
  match s.read 1 true keep with
  | (.ok out, s') => (.ok (out.headD 0), s')
  | (.err e, s') => (.err e, s')
  | (.blocked, s') => (.blocked, s')
  | (.panicked, s') => (.panicked, s')

/-- `InputStream::peek_byte` (iostream.rs lines 51-55). -/
def InputStream.peek_byte (s : InputStream) : IoRes Nat × InputStream :=
  match s.peek 1 true with
  | (.ok out, s') => (.ok (out.headD 0), s')
  | (.err e, s') => (.err e, s')
  | (.blocked, s') => (.blocked, s')
  | (.panicked, s') => (.panicked, s')

/-- A fresh reader wrapper over a queue holding `bytes` with EOF already
written by the producer (iostream.rs lines 25-31 and 41-48). -/
def init_input (bytes : List Nat) (cap : Nat) : InputStream :=
  { istream :=
      { data := bytes, target_len := 0, eof_written := true
        aborted := false, reader_closed := false }
    pre_load_buffer := PreBuffer.new cap
    retained_buffer := []
    processed_len := 0 }


/-! ## Helper lemmas for the iostream theorems -/

theorem IoStream.read_internal_nonconsuming (sb : StreamBuffer)
    (bufLen min_len : Nat) :
    (IoStream.read_internal sb bufLen min_len false).snd = sb := by
  unfold IoStream.read_internal
  split
  · rfl
  · split
    · rfl
    · split
      · split <;> rfl
      · split
        · rfl
        · rfl

theorem IoStream.read_internal_policy (sb : StreamBuffer)
    (bufLen min_len : Nat) (c : Bool) (hml : min_len ≤ bufLen) :
    ((IoStream.read_internal sb bufLen min_len c).fst = .err .streamClosed ↔
      sb.reader_closed = true) ∧
    ((IoStream.read_internal sb bufLen min_len c).fst =
        .err (.unexpectedSigAbort sb.data.length) ↔
      sb.reader_closed = false ∧
      (sb.data.length = 0 ∨ sb.data.length < min_len) ∧ sb.aborted = true) ∧
    ((IoStream.read_internal sb bufLen min_len c).fst =
        .err (.unexpectedEof sb.data.length) ↔
      sb.reader_closed = false ∧
      (sb.data.length = 0 ∨ sb.data.length < min_len) ∧
      sb.aborted = false ∧ sb.eof_written = true) ∧
    (sb.reader_closed = false →
      ¬((sb.data.length = 0 ∨ sb.data.length < min_len) ∧
        (sb.aborted = true ∨ sb.eof_written = true)) →
      (if sb.data.length < min_len then
        (IoStream.read_internal sb bufLen min_len c).fst = .blocked
      else if sb.data.length < bufLen then
        (IoStream.read_internal sb bufLen min_len c).fst = .panicked
      else
        (IoStream.read_internal sb bufLen min_len c).fst =
          .ok (sb.data.take bufLen))) := by
  unfold IoStream.read_internal StreamBuffer.validate_for_read
    StreamBuffer.readBuf
  rcases sb with ⟨q, t, e, a, r⟩
  cases e <;> cases a <;> cases r <;>
    simp only [Bool.false_or, Bool.true_or, Bool.or_false, Bool.or_true,
      List.isEmpty_iff_length_eq_zero] <;>
    split_ifs <;>
    simp_all <;>
    omega

theorem IoStream.consume_policy (sb : StreamBuffer) (len : Nat) :
    ((IoStream.consume sb len).fst = .err .streamClosed ↔
      sb.reader_closed = true) ∧
    ((IoStream.consume sb len).fst = .err (.unexpectedSigAbort sb.data.length) ↔
      sb.reader_closed = false ∧
      (sb.data.length = 0 ∨ sb.data.length < len) ∧ sb.aborted = true) ∧
    ((IoStream.consume sb len).fst = .err (.unexpectedEof sb.data.length) ↔
      sb.reader_closed = false ∧
      (sb.data.length = 0 ∨ sb.data.length < len) ∧
      sb.aborted = false ∧ sb.eof_written = true) ∧
    (sb.reader_closed = false →
      ¬((sb.data.length = 0 ∨ sb.data.length < len) ∧
        (sb.aborted = true ∨ sb.eof_written = true)) →
      (if sb.data.length < len then (IoStream.consume sb len).fst = .blocked
       else (IoStream.consume sb len).fst = .ok len)) := by
  unfold IoStream.consume StreamBuffer.validate_for_read StreamBuffer.consume
  simp only [List.isEmpty_iff_length_eq_zero]
  rcases sb with ⟨q, t, e, a, r⟩
  cases e <;> cases a <;> cases r <;>
    simp only [Bool.false_or, Bool.true_or, Bool.or_false, Bool.or_true] <;>
    split_ifs <;>
    simp_all <;>
    omega

/-- On any successful wrapper read/peek, `processed_len` advances by the
number of bytes returned and the retention buffer grows exactly when
`keep` is set. -/
theorem InputStream.read_internal_ok_state (s : InputStream) (bufLen : Nat)
    (fill keep consume : Bool) (out : List Nat) (s' : InputStream)
    (h : s.read_internal bufLen fill keep consume = (.ok out, s')) :
    s'.processed_len = s.processed_len + out.length ∧
    s'.retained_buffer = s.retained_buffer ++ (if keep then out else []) := by
  unfold InputStream.read_internal at h
  simp only [Bool.or_eq_true, Bool.and_eq_true, decide_eq_true_eq] at h
  split at h
  · simp only [Prod.mk.injEq, IoRes.ok.injEq] at h
    obtain ⟨h1, h2⟩ := h
    subst h1
    subst h2
    simp
  · split at h
    · simp at h
    · split at h
      · split at h
        · simp only [Prod.mk.injEq, IoRes.ok.injEq] at h
          obtain ⟨h1, h2⟩ := h
          subst h1
          subst h2
          simp
        · simp at h
        · simp at h
        · simp at h
      · simp only [Prod.mk.injEq, IoRes.ok.injEq] at h
        obtain ⟨h1, h2⟩ := h
        subst h1
        subst h2
        simp

/-! ## Claim C1: peek semantics -/

/-- C1, counterexample.  The claim states that a successful `peek`/`peek_byte`
on the reader wrapper never consumes: the bytes it returns are returned again
by the next read and `processed_len` is not advanced.  On the concrete wrapper
state over the queue `[1, 2]` with pre-load capacity 1 (so that every pull
from the queue fills the whole pre-load slice and `StreamBuffer::read` does
not panic), a successful `peek` of one byte returns `1`, advances
`processed_len` to `1`, and the next one-byte peek/read returns `2`, so the
wrapper peek does consume. -/
theorem c1_counterexample :
    ((init_input [1, 2] 1).peek 1 true).fst = .ok [1] ∧
    ((init_input [1, 2] 1).peek 1 true).snd.processed_len = 1 ∧
    (((init_input [1, 2] 1).peek 1 true).snd.peek_byte).fst = .ok 2 ∧
    (((init_input [1, 2] 1).peek 1 true).snd.read_byte false).fst = .ok 2 := by
  decide

/-- C1, amended.  The `ByteStream`-level peek (`IoStream::peek`) never
consumes: it leaves the shared buffer unchanged.  The reader wrapper's
`peek`, however, is exactly `read` with `keep = false`: on success it
consumes the returned bytes, advances `processed_len` by the number of bytes
returned, and leaves the retention buffer unchanged. -/
theorem c1_amended (sb : StreamBuffer) (bufLen min_len : Nat)
    (s s' : InputStream) (fill : Bool) (out : List Nat)
    (hpeek : s.peek bufLen fill = (.ok out, s')) :
    (IoStream.peek sb bufLen min_len).snd = sb ∧
    s.peek bufLen fill = s.read bufLen fill false ∧
    s'.processed_len = s.processed_len + out.length ∧
    s'.retained_buffer = s.retained_buffer := by
  refine ⟨IoStream.read_internal_nonconsuming sb bufLen min_len, rfl, ?_⟩
  have h := InputStream.read_internal_ok_state s bufLen fill false true out s' hpeek
  simpa using h

/-- C1, witness for `c1_amended` at a concrete state. -/
theorem c1_amended_witness :
    (IoStream.peek (init_input [1, 2] 1).istream 1 1).snd =
      (init_input [1, 2] 1).istream ∧
    ((init_input [1, 2] 1).peek 1 true).snd.processed_len = 0 + 1 := by
  have h := c1_amended (init_input [1, 2] 1).istream 1 1
    (init_input [1, 2] 1) ((init_input [1, 2] 1).peek 1 true).snd true [1]
    (by decide)
  exact ⟨h.1, h.2.2.1⟩

/-! ## Claim C7: validation-for-read policy -/

/-- C7, counterexample.  The claim asserts that apart from the three error
cases the operation proceeds (waiting if needed) and succeeds.  On the
queue `[5]` with no flags set, a read with `buf.len() = 2`, `min_len = 1`
passes validation and needs no wait (`|Q| = 1 ≥ 1`), yet
`StreamBuffer::read` panics at iostream.rs:483: the contiguous queue is
shorter than the destination slice and `clone_from_slice` rejects the
length mismatch.  The second conjunct records that none of the claim's
error conditions applies at this state. -/
theorem c7_counterexample :
    IoStream.read ⟨[5], 0, false, false, false⟩ 2 1 =
      (.panicked, ⟨[5], 0, false, false, false⟩) ∧
    ¬(([5] : List Nat).length = 0 ∨ ([5] : List Nat).length < 1) := by
  decide

/-- C7, amended.  For every `ByteStream` read, peek, or consume: if
`reader_closed` the result is `StreamClosed`; otherwise, if the queue is
empty or the request cannot be satisfied without waiting, the result is
`UnexpectedSigAbort(|Q|)` when `aborted` is set, else `UnexpectedEof(|Q|)`
when `eof_written` is set.  In the remaining cases a consume proceeds
(waiting if needed, modelled as the explicit outcome `blocked`) and
succeeds, but a read or peek succeeds only when `|Q| ≥ buf.len()`: with
`min_len ≤ |Q| < buf.len()` the copy in `StreamBuffer::read`
(iostream.rs:483) panics on the slice-length mismatch of the contiguous
queue. -/
theorem c7_amended (sb : StreamBuffer) (bufLen min_len : Nat)
    (hml : min_len ≤ bufLen) :
    (((IoStream.read sb bufLen min_len).fst = .err .streamClosed ↔
        sb.reader_closed = true) ∧
      ((IoStream.read sb bufLen min_len).fst =
          .err (.unexpectedSigAbort sb.data.length) ↔
        sb.reader_closed = false ∧
        (sb.data.length = 0 ∨ sb.data.length < min_len) ∧ sb.aborted = true) ∧
      ((IoStream.read sb bufLen min_len).fst =
          .err (.unexpectedEof sb.data.length) ↔
        sb.reader_closed = false ∧
        (sb.data.length = 0 ∨ sb.data.length < min_len) ∧
        sb.aborted = false ∧ sb.eof_written = true) ∧
      (sb.reader_closed = false →
        ¬((sb.data.length = 0 ∨ sb.data.length < min_len) ∧
          (sb.aborted = true ∨ sb.eof_written = true)) →
        (if sb.data.length < min_len then
          (IoStream.read sb bufLen min_len).fst = .blocked
        else if sb.data.length < bufLen then
          (IoStream.read sb bufLen min_len).fst = .panicked
        else
          (IoStream.read sb bufLen min_len).fst =
            .ok (sb.data.take bufLen)))) ∧
    (((IoStream.peek sb bufLen min_len).fst = .err .streamClosed ↔
        sb.reader_closed = true) ∧
      ((IoStream.peek sb bufLen min_len).fst =
          .err (.unexpectedSigAbort sb.data.length) ↔
        sb.reader_closed = false ∧
        (sb.data.length = 0 ∨ sb.data.length < min_len) ∧ sb.aborted = true) ∧
      ((IoStream.peek sb bufLen min_len).fst =
          .err (.unexpectedEof sb.data.length) ↔
        sb.reader_closed = false ∧
        (sb.data.length = 0 ∨ sb.data.length < min_len) ∧
        sb.aborted = false ∧ sb.eof_written = true) ∧
      (sb.reader_closed = false →
        ¬((sb.data.length = 0 ∨ sb.data.length < min_len) ∧
          (sb.aborted = true ∨ sb.eof_written = true)) →
        (if sb.data.length < min_len then
          (IoStream.peek sb bufLen min_len).fst = .blocked
        else if sb.data.length < bufLen then
          (IoStream.peek sb bufLen min_len).fst = .panicked
        else
          (IoStream.peek sb bufLen min_len).fst =
            .ok (sb.data.take bufLen)))) ∧
    (((IoStream.consume sb min_len).fst = .err .streamClosed ↔
        sb.reader_closed = true) ∧
      ((IoStream.consume sb min_len).fst =
          .err (.unexpectedSigAbort sb.data.length) ↔
        sb.reader_closed = false ∧
        (sb.data.length = 0 ∨ sb.data.length < min_len) ∧ sb.aborted = true) ∧
      ((IoStream.consume sb min_len).fst =
          .err (.unexpectedEof sb.data.length) ↔
        sb.reader_closed = false ∧
        (sb.data.length = 0 ∨ sb.data.length < min_len) ∧
        sb.aborted = false ∧ sb.eof_written = true) ∧
      (sb.reader_closed = false →
        ¬((sb.data.length = 0 ∨ sb.data.length < min_len) ∧
          (sb.aborted = true ∨ sb.eof_written = true)) →
        (if sb.data.length < min_len then
          (IoStream.consume sb min_len).fst = .blocked
        else (IoStream.consume sb min_len).fst = .ok min_len))) :=
  ⟨IoStream.read_internal_policy sb bufLen min_len true hml,
   IoStream.read_internal_policy sb bufLen min_len false hml,
   IoStream.consume_policy sb min_len⟩

/-- C7, witness for `c7_amended` at a concrete state where the read
succeeds (`|Q| = buf.len()`). -/
theorem c7_amended_witness :
    (IoStream.read ⟨[5, 6], 0, true, false, false⟩ 2 1).fst = .ok [5, 6] := by
  have h := c7_amended ⟨[5, 6], 0, true, false, false⟩ 2 1 (by decide)
  have h4 := h.1.2.2.2 rfl (by simp)
  simpa using h4

/-! ## Claim C10: zero-length reads -/

/-- C10.  For every reader-wrapper state — including closed, aborted or
EOF states — a `read` or `peek` with a zero-length destination buffer
returns `Ok` with zero bytes immediately and leaves the whole wrapper state
(queue, pre-load buffer, retention buffer, `processed_len`) unchanged. -/
theorem c10_zero_length_read_is_noop (s : InputStream) (fill keep : Bool) :
    s.read 0 fill keep = (.ok [], s) ∧ s.peek 0 fill = (.ok [], s) :=
  ⟨rfl, rfl⟩


/-! ## src/src/jpeg_decoder/decoder.rs: DC predictor arithmetic (claim C9) -/

/-- Two's-complement wrapping of an integer into the `i16` range
`[-32768, 32767]`, as performed by Rust `i16` wrapping operations. -/
def wrap16 (x : Int) : Int := (x + 32768) % 65536 - 32768

/-- `*dc_predictor = dc_predictor.wrapping_add(diff)`
(decoder.rs lines 559-561). -/
def dc_predictor_update (dc diff : Int) : Int := wrap16 (dc + diff)

/-- `coefficients[0] = *dc_predictor << successive_approximation_low`
(decoder.rs line 562); an `i16` shift discards overflowing bits. -/
def dc_coefficient0 (dc : Int) (al : Nat) : Int := wrap16 (dc * 2 ^ al)

/-- The DC difference dispatch of the sequential `decode_block`
(decoder.rs lines 545-558): category 0 means difference 0, a category above
11 is `Malformatted`, otherwise the sign-extended difference `ext` decoded
by `receive_extend` is used. -/
def dc_diff_of_category (value : Nat) (ext : Int) : Option Int :=
  if value = 0 then some 0
  else if value > 11 then none
  else some ext

/-- C9.  The DC predictor update is performed with wrapping two's-complement
16-bit addition: for every in-range predictor and difference the update is
defined (never panics), stays in the `i16` range, agrees with the
mathematical sum modulo 2^16, and coefficient 0 is the wrapped predictor
shifted left by the successive-approximation low bit count (with `i16`
truncation). -/
theorem c9_dc_predictor_wrapping_add (dc diff : Int) (al : Nat)
    (_hdc : -32768 ≤ dc ∧ dc < 32768) (_hdiff : -32768 ≤ diff ∧ diff < 32768) :
    (-32768 ≤ dc_predictor_update dc diff ∧
      dc_predictor_update dc diff < 32768) ∧
    (dc_predictor_update dc diff) % 65536 = (dc + diff) % 65536 ∧
    (-32768 ≤ dc + diff ∧ dc + diff < 32768 →
      dc_predictor_update dc diff = dc + diff) ∧
    dc_coefficient0 (dc_predictor_update dc diff) al =
      wrap16 ((dc_predictor_update dc diff) * 2 ^ al) := by
  refine ⟨?_, ?_, ?_, rfl⟩ <;>
    simp only [dc_predictor_update, wrap16] <;>
    omega

/-- C9, witness for `c9_dc_predictor_wrapping_add`: the overflowing sum
`32767 + 1` wraps to `-32768` without a panic. -/
theorem c9_dc_predictor_wrapping_add_witness :
    dc_predictor_update 32767 1 = -32768 ∧
    (-32768 ≤ dc_predictor_update 32767 1 ∧
      dc_predictor_update 32767 1 < 32768) := by
  have h := c9_dc_predictor_wrapping_add 32767 1 0 (by decide) (by decide)
  exact ⟨by decide, h.1⟩

/-! ## src/src/thread_handoff.rs (claim C8) -/

/-- `ThreadHandoffExt` from thread_handoff.rs lines 34-43.  Field values are
`Nat`s carrying the `u16`/`u32`/`u8` ranges as side conditions. -/
structure ThreadHandoffExt where
  start_scan : Nat
  end_scan : Nat
  mcu_y_start : Nat
  segment_size : Nat
  overhang_byte : Nat
  n_overhang_bit : Nat
  last_dc : List Nat
deriving DecidableEq, Repr

/-- Well-formedness: each field fits its Rust integer type and `last_dc`
has the four `u16` entries of `[u16; 4]`. -/
def ThreadHandoffExt.wf (h : ThreadHandoffExt) : Prop :=
  h.start_scan < 65536 ∧ h.end_scan < 65536 ∧ h.mcu_y_start < 65536 ∧
  h.segment_size < 4294967296 ∧ h.overhang_byte < 256 ∧
  h.n_overhang_bit < 256 ∧
  h.last_dc.length = 4 ∧ ∀ d ∈ h.last_dc, d < 65536

instance (h : ThreadHandoffExt) : Decidable h.wf := by
  unfold ThreadHandoffExt.wf
  infer_instance

/-- Modelled from the spec: `LittleEndian::u16_to_array` of the absent
byte_converter module — the two little-endian bytes of a `u16`. -/
def u16_to_array_le (x : Nat) : List Nat := [x % 256, x / 256 % 256]

/-- Modelled from the spec: `LittleEndian::u32_to_array` of the absent
byte_converter module — the four little-endian bytes of a `u32`. -/
def u32_to_array_le (x : Nat) : List Nat :=
  [x % 256, x / 256 % 256, x / 65536 % 256, x / 16777216 % 256]

/-- The 20-byte record of one handoff
(thread_handoff.rs lines 49-60, loop body). -/
def ThreadHandoffExt.serializeOne (h : ThreadHandoffExt) : List Nat :=
  u16_to_array_le h.start_scan ++ u16_to_array_le h.end_scan ++
  u16_to_array_le h.mcu_y_start ++ u32_to_array_le h.segment_size ++
  [h.overhang_byte % 256, h.n_overhang_bit % 256] ++
  (h.last_dc.map (fun d => [d % 256, d / 256 % 256])).flatten

/-- `ThreadHandoffExt::serialize` (thread_handoff.rs lines 46-62): a `u8`
count (`data.len() as u8`, i.e. the length modulo 256) followed by the
20-byte records. -/
def ThreadHandoffExt.serialize (data : List ThreadHandoffExt) : List Nat :=
  data.length % 256 :: (data.map ThreadHandoffExt.serializeOne).flatten

/-- Modelled from the spec: the record parser of the deserializer of the
serialized `ThreadHandoffExt` list (no deserializer is present under src/;
§6 of the spec fixes the wire format: `u8 count` then `count` records of 20
bytes in the order start_scan, end_scan, mcu_y_start `u16`; segment_size
`u32`; overhang_byte, n_overhang_bit `u8`; 4 × u16 last_dc, all
little-endian). -/
def deserialize_records (n : Nat) (bs : List Nat) :
    Option (List ThreadHandoffExt) :=
  match n with
  | 0 => if bs.isEmpty then some [] else none
  | n + 1 =>
    match bs with
    | b0 :: b1 :: b2 :: b3 :: b4 :: b5 :: b6 :: b7 :: b8 :: b9 ::
      b10 :: b11 :: b12 :: b13 :: b14 :: b15 :: b16 :: b17 :: b18 :: b19 ::
      rest =>
      match deserialize_records n rest with
      | some hs =>
        some ({ start_scan := b0 + 256 * b1, end_scan := b2 + 256 * b3,
                mcu_y_start := b4 + 256 * b5,
                segment_size :=
                  b6 + 256 * b7 + 65536 * b8 + 16777216 * b9,
                overhang_byte := b10, n_overhang_bit := b11,
                last_dc := [b12 + 256 * b13, b14 + 256 * b15,
                            b16 + 256 * b17, b18 + 256 * b19] } :: hs)
      | none => none
    | _ => none

/-- Modelled from the spec: full deserializer (count byte, then records). -/
def ThreadHandoffExt.deserialize (bs : List Nat) :
    Option (List ThreadHandoffExt) :=
  match bs with
  | [] => none
  | n :: rest => deserialize_records n rest

theorem ThreadHandoffExt.serializeOne_length (h : ThreadHandoffExt)
    (h4 : h.last_dc.length = 4) : h.serializeOne.length = 20 := by
  rcases h with ⟨a, b, c, d, e, f, dc⟩
  simp only at h4
  match dc, h4 with
  | [d0, d1, d2, d3], _ => rfl

theorem ThreadHandoffExt.serializeOne_roundtrip (h : ThreadHandoffExt)
    (hwf : h.wf) (n : Nat) (rest : List Nat) :
    deserialize_records (n + 1) (h.serializeOne ++ rest) =
      (deserialize_records n rest).map (fun hs => h :: hs) := by
  obtain ⟨h1, h2, h3, h4, h5, h6, h7, h8⟩ := hwf
  rcases h with ⟨a, b, c, d, e, f, dc⟩
  simp only at h1 h2 h3 h4 h5 h6 h7 h8
  match dc, h7 with
  | [d0, d1, d2, d3], _ =>
    have hd0 := h8 d0 (by simp)
    have hd1 := h8 d1 (by simp)
    have hd2 := h8 d2 (by simp)
    have hd3 := h8 d3 (by simp)
    simp only [ThreadHandoffExt.serializeOne, u16_to_array_le,
      u32_to_array_le, List.map_cons, List.map_nil, List.flatten_cons,
      List.flatten_nil, List.cons_append, List.nil_append, List.append_nil]
    rcases hE : deserialize_records n rest with _ | hs
    · simp only [deserialize_records, hE, Option.map_none']
    · simp only [deserialize_records, hE, Option.map_some',
        Option.some.injEq, List.cons.injEq, ThreadHandoffExt.mk.injEq,
        and_true, true_and, and_assoc]
      omega

theorem serialize_records_roundtrip :
    ∀ data : List ThreadHandoffExt, (∀ h ∈ data, h.wf) →
      deserialize_records data.length
        ((data.map ThreadHandoffExt.serializeOne).flatten) = some data := by
  intro data
  induction data with
  | nil => intro _; rfl
  | cons h t ih =>
    intro hwf
    have hh := hwf h (by simp)
    have ht : ∀ x ∈ t, x.wf := fun x hx => hwf x (by simp [hx])
    simp only [List.map_cons, List.flatten_cons, List.length_cons]
    rw [ThreadHandoffExt.serializeOne_roundtrip h hh, ih ht]
    rfl

/-- Serialized length of a record list. -/
theorem ThreadHandoffExt.serialize_length :
    ∀ data : List ThreadHandoffExt, (∀ h ∈ data, h.last_dc.length = 4) →
      (ThreadHandoffExt.serialize data).length = 1 + 20 * data.length := by
  intro data
  induction data with
  | nil => intro _; rfl
  | cons h t ih =>
    intro hwf
    have hh := hwf h (by simp)
    have ht : ∀ x ∈ t, x.last_dc.length = 4 := fun x hx => hwf x (by simp [hx])
    have ihl := ih ht
    simp only [ThreadHandoffExt.serialize, List.map_cons, List.flatten_cons,
      List.length_cons, List.length_append] at ihl ⊢
    rw [ThreadHandoffExt.serializeOne_length h hh]
    omega

/-- The count byte written by serialize is the list length modulo 256. -/
theorem ThreadHandoffExt.serialize_head (data : List ThreadHandoffExt) :
    (ThreadHandoffExt.serialize data).headD 0 = data.length % 256 := rfl

/-- The 256-element list of all-zero handoff records. -/
def c8list : List ThreadHandoffExt :=
  List.replicate 256 ⟨0, 0, 0, 0, 0, 0, [0, 0, 0, 0]⟩

/-- C8, counterexample.  The claim quantifies over every list of `n`
records and asserts the leading byte is a `u8` count *equal to n* and that
deserializing the output yields the original list.  For the 256-element
list of all-zero records the count byte is `0` (`data.len() as u8`
truncates), and deserialization of the specified wire format cannot return
the original list — with the count byte 0 it fails (or, for a deserializer
ignoring trailing bytes, returns `[]`), never the 256 records. -/
theorem c8_counterexample :
    (ThreadHandoffExt.serialize c8list).headD 0 = 0 ∧
    c8list.length = 256 ∧
    ThreadHandoffExt.deserialize (ThreadHandoffExt.serialize c8list) =
      none := by
  have hlen : c8list.length = 256 := by
    show (List.replicate 256 (⟨0, 0, 0, 0, 0, 0, [0, 0, 0, 0]⟩ :
      ThreadHandoffExt)).length = 256
    rw [List.length_replicate]
  have h4 : ∀ h ∈ c8list, h.last_dc.length = 4 := by
    intro h hh
    simp only [c8list, List.mem_replicate] at hh
    rw [hh.2]
    rfl
  have hsl := ThreadHandoffExt.serialize_length c8list h4
  refine ⟨by rw [ThreadHandoffExt.serialize_head, hlen], hlen, ?_⟩
  have hrest : ((c8list.map ThreadHandoffExt.serializeOne).flatten).length =
      5120 := by
    simp only [ThreadHandoffExt.serialize, List.length_cons, hlen] at hsl
    omega
  have hne : ((c8list.map ThreadHandoffExt.serializeOne).flatten).isEmpty ≠
      true := by
    intro hempty
    have h0 := List.isEmpty_iff_length_eq_zero.mp hempty
    omega
  show deserialize_records (c8list.length % 256)
      ((c8list.map ThreadHandoffExt.serializeOne).flatten) = none
  rw [hlen]
  show deserialize_records 0
      ((c8list.map ThreadHandoffExt.serializeOne).flatten) = none
  unfold deserialize_records
  exact if_neg hne

/-- C8, amended.  For every list of at most 255 well-formed records,
serialize produces exactly `1 + 20·n` bytes — a `u8` count equal to `n`
followed by `n` 20-byte records in the specified little-endian field
order — and deserializing the output returns a list equal to the original.
(For longer lists the count byte is `n mod 256` and the round-trip fails.) -/
theorem c8_amended (data : List ThreadHandoffExt)
    (hwf : ∀ h ∈ data, h.wf) (hn : data.length ≤ 255) :
    (ThreadHandoffExt.serialize data).length = 1 + 20 * data.length ∧
    (ThreadHandoffExt.serialize data).headD 0 = data.length ∧
    ThreadHandoffExt.deserialize (ThreadHandoffExt.serialize data) =
      some data := by
  refine ⟨ThreadHandoffExt.serialize_length data
      (fun h hh => ((hwf h hh).2.2.2.2.2.2.1)), ?_, ?_⟩
  · rw [ThreadHandoffExt.serialize_head]
    exact Nat.mod_eq_of_lt (by omega)
  · show deserialize_records (data.length % 256)
        ((data.map ThreadHandoffExt.serializeOne).flatten) = some data
    rw [Nat.mod_eq_of_lt (by omega : data.length < 256)]
    exact serialize_records_roundtrip data hwf

/-- C8, witness for `c8_amended` on a concrete two-record list. -/
theorem c8_amended_witness :
    ThreadHandoffExt.deserialize
      (ThreadHandoffExt.serialize
        [⟨1, 2, 3, 70000, 5, 6, [7, 8, 9, 300]⟩,
         ⟨65535, 0, 258, 4294967295, 255, 7, [0, 1, 2, 3]⟩]) =
      some [⟨1, 2, 3, 70000, 5, 6, [7, 8, 9, 300]⟩,
            ⟨65535, 0, 258, 4294967295, 255, 7, [0, 1, 2, 3]⟩] :=
  (c8_amended
    [⟨1, 2, 3, 70000, 5, 6, [7, 8, 9, 300]⟩,
     ⟨65535, 0, 258, 4294967295, 255, 7, [0, 1, 2, 3]⟩]
    (by decide) (by decide)).2.2


/-! ## src/src/jpeg_decoder/decoder.rs: common error and format types -/

/-- `UnsupportedFeature` of the absent error.rs, modelled from the spec
(§7: hierarchical, lossless, arithmetic entropy, precision ≠ 8, DNL,
component count). -/
inductive UnsupportedFeature where
  | hierarchical
  | lossless
  | arithmeticEntropyCoding
  | samplePrecision (p : Nat)
  | dnl
  | componentCount (n : Nat)
deriving DecidableEq, Repr

/-- `JpegError` of the absent error.rs, modelled from the spec (§7). -/
inductive JpegError where
  | eof
  | malformatted (msg : String)
  | unsupported (f : UnsupportedFeature)
deriving DecidableEq, Repr

/-- Modelled from the spec: the `From<InputError> for JpegError` conversion
of the absent error.rs.  §7 classifies stream-exhaustion errors raised
while the decoder is pulling bytes as `JpegError::EOF` (the top-level
decoder then reclassifies an early EOF as `Malformatted`). -/
def InputError.toJpegError : InputError → JpegError := fun _ => .eof

/-- `Scan` of the absent jpeg.rs, restricted to the fields decoder.rs
touches: the raw header bytes recorded at SOS and the truncation point
`(component_index, y, x)`. -/
structure ScanG where
  raw_header : List Nat
  truncation : Option (Nat × Nat × Nat)
deriving DecidableEq, Repr

/-- `FormatInfo` of the absent jpeg.rs, restricted to the fields decoder.rs
touches: `pge`, `grb` and the handoff list. -/
structure FormatInfoG where
  pge : List Nat
  grb : List Nat
  handoff : List ThreadHandoffExt
deriving DecidableEq, Repr

/-! ## Claim C3: the pge slice taken at SOS (decoder.rs lines 166-177) -/

/-- The bytes appended to `FormatInfo.pge` when an SOS is parsed
(decoder.rs lines 168-176), including the `in_pge` guard (lines 516-518).
The index `retained.len() - processed_len + start_byte` is `usize`
arithmetic evaluated left to right; the subtraction underflows (and the
checked build panics, modelled as `none`) whenever
`retained.len < processed_len`. -/
def sos_pge_extend (retained : List Nat) (processed_len start_byte : Nat)
    (pge : List Nat) : Option (List Nat) :=
  if start_byte > 0 ∧ processed_len > start_byte then
    if retained.length < processed_len then none
    else
      some (pge ++
        retained.drop (max (retained.length - processed_len + start_byte) 0))
  else some pge

/-- C3, counterexample.  The claim asserts the computation underflows and
panics exactly when `retained.len < processed_len − start_byte`, and
otherwise appends the suffix from
`max(retained.len − processed_len + start_byte, 0)`.  With
`retained.len = 5`, `processed_len = 7`, `start_byte = 3` the claim's
condition `5 < 7 − 3` is false, so it predicts a successful append of
`retained[1..]`; the code computes `5 − 7` first, which underflows and
panics. -/
theorem c3_counterexample :
    sos_pge_extend [10, 11, 12, 13, 14] 7 3 [] = none ∧
    ¬((5 : Nat) < 7 - 3) := by
  decide

/-- C3, amended.  When an SOS is parsed with `start_byte > 0` and
`processed_len > start_byte`, the unsigned index computation underflows and
panics exactly when `retained.len < processed_len` (the subtraction
`retained.len − processed_len` is evaluated before `start_byte` is added);
otherwise `pge` receives exactly the suffix of the retained data from index
`retained.len − processed_len + start_byte` (the `max(…, 0)` is vacuous on
unsigned values). -/
theorem c3_amended (retained pge : List Nat) (processed_len start_byte : Nat)
    (hpge : start_byte > 0 ∧ processed_len > start_byte) :
    (sos_pge_extend retained processed_len start_byte pge = none ↔
      retained.length < processed_len) ∧
    (processed_len ≤ retained.length →
      sos_pge_extend retained processed_len start_byte pge =
        some (pge ++
          retained.drop (retained.length - processed_len + start_byte))) := by
  unfold sos_pge_extend
  rw [if_pos hpge]
  constructor
  · by_cases hlt : retained.length < processed_len
    · rw [if_pos hlt]
      simp [hlt]
    · rw [if_neg hlt]
      simp [hlt]
  · intro hle
    rw [if_neg (by omega)]
    have hmax : max (retained.length - processed_len + start_byte) 0 =
        retained.length - processed_len + start_byte := by omega
    rw [hmax]

/-- C3, witness for `c3_amended`: `retained.len = 5`, `processed_len = 4`,
`start_byte = 3` — no panic, and pge receives `retained[4..]`. -/
theorem c3_amended_witness :
    sos_pge_extend [10, 11, 12, 13, 14] 4 3 [99] = some [99, 14] := by
  have h := (c3_amended [10, 11, 12, 13, 14] [99] 4 3 (by omega)).2 (by decide)
  simpa using h

/-! ## Claim C5: the EOF arm of decode_block (decoder.rs lines 486-513) -/

/-- `pop_handoff_and_verify_non_empty` (decoder.rs lines 521-528):
pop the last handoff; error with `EOF` if none remain. -/
def pop_handoff_and_verify_non_empty (f : FormatInfoG) :
    FormatInfoG × Option JpegError :=
  let f' := { f with handoff := f.handoff.dropLast }
  if f'.handoff.isEmpty then (f', some .eof) else (f', none)

/-- The `Err(JpegError::EOF)` arm of `decode_block`
(decoder.rs lines 488-511).  Arguments: the stream counters, the failing
block coordinates `y`, `x` and `scan_component_index` `c`, the number of
components in the scan (`scan_info.component_indices.len()`), the failing
component's `vertical_sampling_factor` (positive in any parsed frame; the
Rust `y % v` would panic at `v = 0`), the Huffman decoder's retained byte
buffer (`huffman.view_buffer()`), and the scan and format being updated.
Returns the propagated error with the updated scan and format. -/
def decode_block_eof_handler (processed_len start_byte y x c : Nat)
    (n_scan_components v_factor : Nat) (huff_buffer : List Nat)
    (scan : ScanG) (format : FormatInfoG) :
    JpegError × ScanG × FormatInfoG :=
  if processed_len < start_byte then
    (.malformatted "EOF encountered before start_byte", scan, format)
  else
    let step1 : FormatInfoG × Option JpegError :=
      if c = 0 ∧ x = 0 then
        if y = 0 then
          match pop_handoff_and_verify_non_empty format with
          | (f', some e) => (f', some e)
          | (f', none) => ({ f' with grb := f'.grb ++ scan.raw_header }, none)
        else if n_scan_components = 1 ∨ y % v_factor = 0 then
          match pop_handoff_and_verify_non_empty format with
          | (f', some e) => (f', some e)
          | (f', none) => ({ f' with grb := f'.grb ++ huff_buffer }, none)
        else (format, none)
      else (format, none)
    match step1 with
    | (f', some e) => (e, scan, f')
    | (f', none) =>
      (.eof, { scan with truncation := some (c, y, x) },
        { f' with grb := f'.grb ++ huff_buffer })

/-- C5, counterexample.  The claim asserts that *whenever* EOF is raised in
a block decode the scan is marked truncated with the failing coordinates
and the buffered bytes are appended to grb.  When
`processed_len < start_byte` the handler instead returns
`Malformatted("EOF encountered before start_byte")` and leaves the scan's
truncation unset and grb untouched. -/
theorem c5_counterexample :
    decode_block_eof_handler 0 5 0 0 0 1 1 [9] ⟨[7], none⟩ ⟨[], [], []⟩ =
      (.malformatted "EOF encountered before start_byte",
        ⟨[7], none⟩, ⟨[], [], []⟩) ∧
    (decode_block_eof_handler 0 5 0 0 0 1 1 [9]
        ⟨[7], none⟩ ⟨[], [], []⟩).2.1.truncation = none := by
  decide

/-- C5, amended.  When EOF is raised in a block decode with
`processed_len ≥ start_byte` and the handoff pops succeed
(`format.handoff` has at least two entries): on the first block of the scan
(`c = x = y = 0`) the last handoff is popped and `scan.raw_header` is placed
in grb before the buffered bytes; on the first block of a later MCU row
(`c = x = 0`, `y > 0`, single-component scan or `y` a multiple of the
vertical sampling factor) the last handoff is popped and the buffered bytes
are appended twice; on any other block the handoff list is unchanged and
the buffered bytes are appended once.  In each case
`scan.truncation := (c, y, x)` and the EOF is propagated.  If instead the
pop leaves the handoff list empty, EOF is propagated with truncation unset
and grb untouched; and with `processed_len < start_byte` the result is
`Malformatted` (see the counterexample). -/
theorem c5_amended (processed_len start_byte y x c : Nat)
    (n_scan_components v_factor : Nat) (huff_buffer : List Nat)
    (scan : ScanG) (format : FormatInfoG)
    (hps : start_byte ≤ processed_len) (hhand : 2 ≤ format.handoff.length) :
    (c = 0 ∧ x = 0 ∧ y = 0 →
      decode_block_eof_handler processed_len start_byte y x c
          n_scan_components v_factor huff_buffer scan format =
        (.eof, { scan with truncation := some (c, y, x) },
          { format with
            handoff := format.handoff.dropLast
            grb := format.grb ++ scan.raw_header ++ huff_buffer })) ∧
    (c = 0 ∧ x = 0 ∧ y ≠ 0 ∧ (n_scan_components = 1 ∨ y % v_factor = 0) →
      decode_block_eof_handler processed_len start_byte y x c
          n_scan_components v_factor huff_buffer scan format =
        (.eof, { scan with truncation := some (c, y, x) },
          { format with
            handoff := format.handoff.dropLast
            grb := format.grb ++ huff_buffer ++ huff_buffer })) ∧
    (¬(c = 0 ∧ x = 0) →
      decode_block_eof_handler processed_len start_byte y x c
          n_scan_components v_factor huff_buffer scan format =
        (.eof, { scan with truncation := some (c, y, x) },
          { format with grb := format.grb ++ huff_buffer })) := by
  have hne : ({ format with handoff := format.handoff.dropLast} :
      FormatInfoG).handoff.isEmpty ≠ true := by
    intro hempty
    have h0 := List.isEmpty_iff_length_eq_zero.mp hempty
    simp only [List.length_dropLast] at h0
    omega
  refine ⟨?_, ?_, ?_⟩
  · rintro ⟨hc, hx, hy⟩
    subst hc
    subst hx
    subst hy
    unfold decode_block_eof_handler pop_handoff_and_verify_non_empty
    rw [if_neg (by omega)]
    simp only [if_pos (And.intro rfl rfl), if_pos rfl]
    rw [if_neg hne]
    simp [List.append_assoc]
  · rintro ⟨hc, hx, hy, hrow⟩
    subst hc
    subst hx
    unfold decode_block_eof_handler pop_handoff_and_verify_non_empty
    rw [if_neg (by omega)]
    simp only [if_pos (And.intro rfl rfl)]
    rw [if_neg hy, if_pos hrow, if_neg hne]
    simp [List.append_assoc]
  · intro hcx
    unfold decode_block_eof_handler
    rw [if_neg (by omega), if_neg hcx]

/-- C5, witness for `c5_amended` on a concrete mid-scan state: the failing
block is the first block of MCU row 2 of a single-component scan. -/
theorem c5_amended_witness :
    decode_block_eof_handler 10 0 2 0 0 1 1 [5, 6]
        ⟨[7], none⟩ ⟨[], [1], [⟨0,0,0,0,0,0,[0,0,0,0]⟩, ⟨0,0,1,9,0,0,[0,0,0,0]⟩]⟩ =
      (.eof, ⟨[7], some (0, 2, 0)⟩,
        ⟨[], [1, 5, 6, 5, 6], [⟨0,0,0,0,0,0,[0,0,0,0]⟩]⟩) := by
  have h := c5_amended 10 0 2 0 0 1 1 [5, 6] ⟨[7], none⟩
      ⟨[], [1], [⟨0,0,0,0,0,0,[0,0,0,0]⟩, ⟨0,0,1,9,0,0,[0,0,0,0]⟩]⟩
      (by omega) (by decide)
  have h2 := h.2.1 ⟨rfl, rfl, by omega, Or.inl rfl⟩
  exact h2


/-! ## Claim C6: restart-interval handling (decoder.rs lines 408-432) -/

/-- Decoder-level result: `stuck` covers a Rust panic or a wait no
single-threaded run can satisfy. -/
inductive DRes (α : Type) where
  | ok (a : α)
  | err (e : JpegError)
  | stuck
deriving DecidableEq, Repr

/-- Modelled from the spec (§4.2, §4.4): the Huffman decoder state visible
to the restart path of decoder.rs (huffman.rs is not under src/): the
bit-accumulator fill level and the retained byte log. -/
structure HuffmanState where
  n_bits : Nat
  byte_log : List Nat
deriving DecidableEq, Repr

/-- Modelled from the spec (§4.4): `clear_buffer` empties the byte log. -/
def HuffmanState.clear_buffer (h : HuffmanState) : HuffmanState :=
  { h with byte_log := [] }

/-- Modelled from the spec (§4.4): `reset` flushes the bit accumulator. -/
def HuffmanState.reset (h : HuffmanState) : HuffmanState :=
  { h with n_bits := 0 }

/-- Modelled from the spec (§4.4): `view_buffer` returns the byte log. -/
def HuffmanState.view_buffer (h : HuffmanState) : List Nat := h.byte_log

/-- Modelled from the spec (§4.4 `read_rst`): consume an aligned `RSTn`
marker — two bytes `FF`, `D0+n` — from the input, logging the bytes read;
`Malformatted` if the observed marker differs from the expected index,
`EOF` if the stream ends first. -/
def HuffmanState.read_rst (h : HuffmanState) (s : InputStream)
    (expected : Nat) : DRes Unit × HuffmanState × InputStream :=
  match s.read_byte false with
  | (.ok b1, s1) =>
    let h1 := { h with byte_log := h.byte_log ++ [b1] }
    if b1 ≠ 0xFF then
      (.err (.malformatted "RST marker expected"), h1, s1)
    else
      match s1.read_byte false with
      | (.ok b2, s2) =>
        let h2 := { h1 with byte_log := h1.byte_log ++ [b2] }
        if b2 = 0xD0 + expected % 8 then (.ok (), h2, s2)
        else (.err (.malformatted "RST marker index mismatch"), h2, s2)
      | (.err _, s2) => (.err .eof, h1, s2)
      | (_, s2) => (.stuck, h1, s2)
  | (.err _, s1) => (.err .eof, h, s1)
  | (_, s1) => (.stuck, h, s1)

/-- The per-scan mutable state threaded through the restart check of
`decode_scan` (decoder.rs lines 344-348 and 408-432). -/
structure RestartState where
  huffman : HuffmanState
  input : InputStream
  dc_predictors : List Int
  eob_run : Nat
  expected_rst_num : Nat
  n_mcu_left_until_restart : Nat
  grb : List Nat
deriving DecidableEq, Repr

/-- The restart-interval block executed after each MCU
(decoder.rs lines 408-432).  `mcu_x`, `mcu_y` are the loop coordinates (over
the scan's own grid); `frame_w`, `frame_h` are `frame.size_in_mcu` — the
code computes `is_last_mcu` against the *frame* grid.  The countdown is a
`u16`; decrementing it from 0 is an arithmetic underflow (`stuck`). -/
def restart_step (restart_interval mcu_x mcu_y frame_w frame_h : Nat)
    (st : RestartState) : DRes Unit × RestartState :=
  if restart_interval = 0 then (.ok (), st)
  else if st.n_mcu_left_until_restart = 0 then (.stuck, st)
  else
    let countdown := st.n_mcu_left_until_restart - 1
    let st1 := { st with n_mcu_left_until_restart := countdown }
    let is_last_mcu := mcu_x = frame_w - 1 ∧ mcu_y = frame_h - 1
    if countdown = 0 ∧ ¬is_last_mcu then
      let h1 := st1.huffman.clear_buffer
      match h1.read_rst st1.input st1.expected_rst_num with
      | (.ok _, h2, s2) =>
        (.ok (), { st1 with
          huffman := h2.reset
          input := s2
          dc_predictors := [0, 0, 0, 0]
          eob_run := 0
          expected_rst_num := (st1.expected_rst_num + 1) % 8
          n_mcu_left_until_restart := restart_interval })
      | (.err .eof, h2, s2) =>
        (.err .eof, { st1 with
          huffman := h2
          input := s2
          grb := st1.grb ++ h2.view_buffer })
      | (.err e, h2, s2) => (.err e, { st1 with huffman := h2, input := s2 })
      | (.stuck, h2, s2) => (.stuck, { st1 with huffman := h2, input := s2 })
    else (.ok (), st1)

/-- C6, counterexample.  The claim asserts a restart marker is consumed
exactly when the countdown reaches zero and the current MCU is *not the
last MCU of the scan*.  Take a non-interleaved scan over a 4×4 component
block grid inside a frame whose MCU grid is 2×2 (e.g. the luma scan of a
32×32 progressive 4:2:0 image): at loop position `(3, 3)` — the last MCU of
the scan — with the countdown reaching zero, the code compares against the
*frame* grid (`3 = 2−1` is false), so it *does* call `read_rst` and
consumes the two marker bytes, advancing `processed_len` to 2 and emptying
the queue.  The pre-load capacity is 1 so that every pull fills the whole
pre-load slice and `StreamBuffer::read` does not panic. -/
theorem c6_counterexample :
    (restart_step 16 3 3 2 2
        ⟨⟨0, []⟩, init_input [0xFF, 0xD0] 1, [0, 0, 0, 0], 0, 0, 1, []⟩).fst =
      .ok () ∧
    (restart_step 16 3 3 2 2
        ⟨⟨0, []⟩, init_input [0xFF, 0xD0] 1, [0, 0, 0, 0], 0, 0, 1,
          []⟩).snd.input.processed_len = 2 ∧
    (restart_step 16 3 3 2 2
        ⟨⟨0, []⟩, init_input [0xFF, 0xD0] 1, [0, 0, 0, 0], 0, 0, 1,
          []⟩).snd.input.istream.data = [] ∧
    ((3 : Nat) = 4 - 1 ∧ (3 : Nat) = 4 - 1) := by
  decide

/-- C6, amended.  In a scan with `restart_interval > 0`, after each MCU the
countdown is decremented, and a restart marker is consumed exactly when the
countdown reaches zero and the MCU position is not
`(frame.size_in_mcu.width − 1, frame.size_in_mcu.height − 1)` — the last
MCU of the *frame* grid, which coincides with the scan's last MCU only for
interleaved scans.  When no marker is consumed nothing but the countdown
changes; after every successful resynchronization the DC predictors are 0,
the EOB run is 0, the bit buffer is empty, the expected RST index is
incremented modulo 8 and the countdown is reset to `restart_interval`. -/
theorem c6_amended (restart_interval mcu_x mcu_y frame_w frame_h : Nat)
    (st : RestartState) (h2 : HuffmanState) (s2 : InputStream)
    (hri : 0 < restart_interval) (hcd : 0 < st.n_mcu_left_until_restart)
    (hrst : (st.huffman.clear_buffer).read_rst st.input st.expected_rst_num =
      (.ok (), h2, s2)) :
    (¬(st.n_mcu_left_until_restart - 1 = 0 ∧
        ¬(mcu_x = frame_w - 1 ∧ mcu_y = frame_h - 1)) →
      restart_step restart_interval mcu_x mcu_y frame_w frame_h st =
        (.ok (), { st with
          n_mcu_left_until_restart := st.n_mcu_left_until_restart - 1 })) ∧
    (st.n_mcu_left_until_restart - 1 = 0 →
      ¬(mcu_x = frame_w - 1 ∧ mcu_y = frame_h - 1) →
      restart_step restart_interval mcu_x mcu_y frame_w frame_h st =
        (.ok (), { st with
          huffman := h2.reset
          input := s2
          dc_predictors := [0, 0, 0, 0]
          eob_run := 0
          expected_rst_num := (st.expected_rst_num + 1) % 8
          n_mcu_left_until_restart := restart_interval }) ∧
      (h2.reset).n_bits = 0) := by
  constructor
  · intro hno
    unfold restart_step
    rw [if_neg (by omega), if_neg (by omega), if_neg hno]
  · intro hz hlast
    unfold restart_step
    rw [if_neg (by omega), if_neg (by omega), if_pos (And.intro hz hlast)]
    dsimp only
    rw [hrst]
    exact ⟨rfl, rfl⟩

/-- C6, witness for `c6_amended`: a successful resynchronization at a
mid-frame MCU resets predictors, EOB run, bit buffer and countdown. -/
theorem c6_amended_witness :
    restart_step 2 0 0 2 2
        ⟨⟨7, [1]⟩, init_input [0xFF, 0xD3, 0x55] 1, [3, 0, 0, 0], 9, 3, 1,
          []⟩ =
      (.ok (), ⟨⟨0, [0xFF, 0xD3]⟩,
        ⟨⟨[0x55], 0, true, false, false⟩, ⟨[0xD3], 1, 1⟩, [], 2⟩,
        [0, 0, 0, 0], 0, 4, 2, []⟩) := by
  have h := (c6_amended 2 0 0 2 2
      ⟨⟨7, [1]⟩, init_input [0xFF, 0xD3, 0x55] 1, [3, 0, 0, 0], 9, 3, 1, []⟩
      ⟨7, [0xFF, 0xD3]⟩
      ⟨⟨[0x55], 0, true, false, false⟩, ⟨[0xD3], 1, 1⟩, [], 2⟩
      (by decide) (by decide) (by decide)).2 rfl (by decide)
  exact h.1


/-! ## src/src/jpeg_decoder/decoder.rs: the top-level decoder (C2, C4) -/

/-- JPEG markers, from the absent marker.rs; constructors follow the
dispatch arms of decoder.rs. -/
inductive Marker where
  | SOI
  | EOI
  | SOS
  | DQT
  | DHT
  | DAC
  | DRI
  | COM
  | DNL
  | DHP
  | EXP
  | TEM
  | SOF (n : Nat)
  | APP (n : Nat)
  | RST (n : Nat)
deriving DecidableEq, Repr

/-- Modelled from the spec / ISO 10918-1 marker assignments (marker.rs is
not under src/): the marker encoded by a second marker byte. -/
def Marker.from_u8 (b : Nat) : Option Marker :=
  if b = 0x01 then some .TEM
  else if 0xC0 ≤ b ∧ b ≤ 0xCF then
    if b = 0xC4 then some .DHT
    else if b = 0xC8 then none
    else if b = 0xCC then some .DAC
    else some (.SOF (b - 0xC0))
  else if 0xD0 ≤ b ∧ b ≤ 0xD7 then some (.RST (b - 0xD0))
  else if b = 0xD8 then some .SOI
  else if b = 0xD9 then some .EOI
  else if b = 0xDA then some .SOS
  else if b = 0xDB then some .DQT
  else if b = 0xDC then some .DNL
  else if b = 0xDD then some .DRI
  else if b = 0xDE then some .DHP
  else if b = 0xDF then some .EXP
  else if 0xE0 ≤ b ∧ b ≤ 0xEF then some (.APP (b - 0xE0))
  else if b = 0xFE then some .COM
  else none

/-- `CodingProcess` of the absent jpeg.rs (spec §3). -/
inductive CodingProcess where
  | baseline
  | sequentialExtended
  | progressive
  | lossless
deriving DecidableEq, Repr

/-- `EntropyCoding` of the absent jpeg.rs (spec §3). -/
inductive EntropyCoding where
  | huffman
  | arithmetic
deriving DecidableEq, Repr

/-- `Component` of the absent jpeg.rs, restricted to the parsed fields
(spec §3). -/
structure Component where
  id : Nat
  horizontal_sampling_factor : Nat
  vertical_sampling_factor : Nat
  quantization_table_index : Nat
deriving DecidableEq, Repr

/-- `FrameInfo` of the absent jpeg.rs, restricted to the fields
decoder.rs inspects (spec §3). -/
structure FrameInfo where
  is_baseline : Bool
  is_differential : Bool
  coding_process : CodingProcess
  entropy_coding : EntropyCoding
  precision : Nat
  height : Nat
  width : Nat
  components : List Component
deriving DecidableEq, Repr

/-- `Jpeg` of the absent jpeg.rs (spec §3). -/
structure Jpeg where
  frame : FrameInfo
  scans : List ScanG
  format : Option FormatInfoG
deriving DecidableEq, Repr

/-- `JpegDecoder` state (decoder.rs lines 26-37), restricted to the fields
the embedded paths touch; the Huffman/quantization table slots are only
consumed by the entropy decoder, which is not embedded. -/
structure DecState where
  input : InputStream
  frame : Option FrameInfo
  scans : List ScanG
  format : Option FormatInfoG
  restart_interval : Nat
  is_mjpeg : Bool
  n_scan_processed : Nat
  header_only : Bool
  start_byte : Nat
deriving DecidableEq, Repr

/-- Lift a wrapper I/O outcome into the decoder monad via the
`From<InputError> for JpegError` conversion. -/
def ioToD {α : Type} : IoRes α × InputStream → DRes α × InputStream
  | (.ok a, s) => (.ok a, s)
  | (.err e, s) => (.err e.toJpegError, s)
  | (.blocked, s) => (.stuck, s)
  | (.panicked, s) => (.stuck, s)

/-- `self.input.read_byte(keep)?` as used throughout decoder.rs. -/
def read_byteJ (s : InputStream) (keep : Bool) : DRes Nat × InputStream :=
  ioToD (s.read_byte keep)

/-- First loop of `read_marker` (decoder.rs line 275): read bytes until a
`0xFF` is read. -/
def skip_to_ff : Nat → InputStream → DRes Unit × InputStream
  | 0, s => (.stuck, s)
  | fuel + 1, s =>
    match read_byteJ s true with
    | (.ok b, s1) => if b = 0xFF then (.ok (), s1) else skip_to_ff fuel s1
    | (.err e, s1) => (.err e, s1)
    | (.stuck, s1) => (.stuck, s1)

/-- Second loop of `read_marker` (decoder.rs lines 276-281): skip fill
`0xFF` bytes and return the first byte that differs. -/
def skip_fill_ff : Nat → InputStream → DRes Nat × InputStream
  | 0, s => (.stuck, s)
  | fuel + 1, s =>
    match read_byteJ s true with
    | (.ok b, s1) => if b = 0xFF then skip_fill_ff fuel s1 else (.ok b, s1)
    | (.err e, s1) => (.err e, s1)
    | (.stuck, s1) => (.stuck, s1)

/-- `JpegDecoder::read_marker` (decoder.rs lines 270-288); the
`Marker::from_u8(byte).unwrap()` panic on an unassigned byte is `stuck`. -/
def read_marker (fuel : Nat) (s : InputStream) : DRes Marker × InputStream :=
  match skip_to_ff fuel s with
  | (.ok _, s1) =>
    match skip_fill_ff fuel s1 with
    | (.ok b, s2) =>
      if b = 0 then
        (.err (.malformatted
          "0xFF00 found where marker was expected (read_marker)"), s2)
      else
        match Marker.from_u8 b with
        | some m => (.ok m, s2)
        | none => (.stuck, s2)
    | (.err e, s2) => (.err e, s2)
    | (.stuck, s2) => (.stuck, s2)
  | (.err e, s1) => (.err e, s1)
  | (.stuck, s1) => (.stuck, s1)

/-- Modelled from the spec (§4.5; parser.rs is not under src/): every
segment parser reads the 2-byte big-endian length prefix (inclusive of the
length bytes) and then the remaining `length − 2` bytes of the segment,
with `keep = true`; returns the payload. -/
def read_segment (s : InputStream) : DRes (List Nat) × InputStream :=
  match ioToD (s.read 2 true true) with
  | (.ok lb, s1) =>
    let len := lb.getD 0 0 * 256 + lb.getD 1 0
    if len < 2 then (.err (.malformatted "invalid segment length"), s1)
    else
      match ioToD (s1.read (len - 2) true true) with
      | (.ok payload, s2) => (.ok payload, s2)
      | (.err e, s2) => (.err e, s2)
      | (.stuck, s2) => (.stuck, s2)
  | (.err e, s1) => (.err e, s1)
  | (.stuck, s1) => (.stuck, s1)

/-- Modelled from the spec (§4.5): `parse_sof` — the SOF payload is
precision, 2-byte height, 2-byte width, component count, then 3 bytes per
component (id, packed H/V sampling nibbles, quantization table index);
the SOF variant index `n` fixes the coding process, entropy coding and
differential flags. -/
def parse_sof (s : InputStream) (n : Nat) : DRes FrameInfo × InputStream :=
  match read_segment s with
  | (.ok p, s1) =>
    let nf := p.getD 5 0
    let comps := (List.range nf).map fun i =>
      ({ id := p.getD (6 + 3 * i) 0
         horizontal_sampling_factor := p.getD (7 + 3 * i) 0 / 16
         vertical_sampling_factor := p.getD (7 + 3 * i) 0 % 16
         quantization_table_index := p.getD (8 + 3 * i) 0 } : Component)
    (.ok
      { is_baseline := n = 0
        is_differential := n = 5 ∨ n = 6 ∨ n = 7 ∨ n = 13 ∨ n = 14 ∨ n = 15
        coding_process :=
          if n = 3 ∨ n = 7 ∨ n = 11 ∨ n = 15 then .lossless
          else if n = 2 ∨ n = 6 ∨ n = 10 ∨ n = 14 then .progressive
          else if n = 1 ∨ n = 5 ∨ n = 9 ∨ n = 13 then .sequentialExtended
          else .baseline
        entropy_coding := if 8 ≤ n then .arithmetic else .huffman
        precision := p.getD 0 0
        height := p.getD 1 0 * 256 + p.getD 2 0
        width := p.getD 3 0 * 256 + p.getD 4 0
        components := comps }, s1)
  | (.err e, s1) => (.err e, s1)
  | (.stuck, s1) => (.stuck, s1)

/-- Modelled from the spec (§4.5): `parse_dri` — the 2-byte big-endian
restart interval. -/
def parse_dri (s : InputStream) : DRes Nat × InputStream :=
  match read_segment s with
  | (.ok p, s1) => (.ok (p.getD 0 0 * 256 + p.getD 1 0), s1)
  | (.err e, s1) => (.err e, s1)
  | (.stuck, s1) => (.stuck, s1)

/-- Modelled from the spec (§4.5): `parse_app` — APP0 with an `"AVI1"`
payload marks the stream as MJPEG; every other application segment is
skipped. -/
def parse_app (s : InputStream) (n : Nat) : DRes Bool × InputStream :=
  match read_segment s with
  | (.ok p, s1) => (.ok (n = 0 && p.take 4 = [0x41, 0x56, 0x49, 0x31]), s1)
  | (.err e, s1) => (.err e, s1)
  | (.stuck, s1) => (.stuck, s1)

/-- Modelled from the spec: `Scan::is_empty` of the absent jpeg.rs — a scan
that decoded nothing (truncated at its very first block).  Not exercised by
any theorem below. -/
def scan_is_empty (sc : ScanG) : Bool := sc.truncation = some (0, 0, 0)

/-- Modelled from the spec (§4.6): `decode_scan`.  The entropy-decoding
loop is not embedded (huffman.rs and the Huffman tables are not under
src/); this stub leaves the state unchanged and is not exercised by any
theorem below — every input driven through `decode` in this file contains
no SOS segment. -/
def decode_scan_model (st : DecState) : DRes Unit × DecState := (.ok (), st)

/-- One pass of the marker-dispatch loop of `decode_internal`
(decoder.rs lines 116-266), with explicit fuel for the loops. -/
def decode_internal_loop : Nat → Marker → DecState → DRes Unit × DecState
  | 0, _, st => (.stuck, st)
  | fuel + 1, prev, st =>
    match read_marker (fuel + 1) st.input with
    | (.ok marker, s1) =>
      let st := { st with input := s1 }
      match marker with
      | .SOF n =>
        if st.frame.isSome then
          (.err (.unsupported .hierarchical), st)
        else
          match parse_sof st.input n with
          | (.ok fi, s2) =>
            let st := { st with input := s2 }
            if fi.is_differential then
              (.err (.unsupported .hierarchical), st)
            else if fi.coding_process = .lossless then
              (.err (.unsupported .lossless), st)
            else if fi.entropy_coding = .arithmetic then
              (.err (.unsupported .arithmeticEntropyCoding), st)
            else if fi.precision ≠ 8 then
              (.err (.unsupported (.samplePrecision fi.precision)), st)
            else if fi.height = 0 then
              (.err (.unsupported .dnl), st)
            else if fi.components.length ≠ 1 ∧ fi.components.length ≠ 3 ∧
                fi.components.length ≠ 4 then
              (.err (.unsupported (.componentCount fi.components.length)), st)
            else
              decode_internal_loop fuel marker
                { st with frame := some fi }
          | (.err e, s2) => (.err e, { st with input := s2 })
          | (.stuck, s2) => (.stuck, { st with input := s2 })
      | .SOS =>
        if st.frame.isNone then
          (.err (.malformatted "scan encountered before frame"), st)
        else
          match read_segment st.input with
          | (.ok _, s2) =>
            let scans' := st.scans ++
              [{ raw_header := s2.retained_buffer, truncation := none }]
            if st.start_byte > 0 ∧ s2.processed_len > st.start_byte then
              match st.format with
              | some f =>
                match sos_pge_extend s2.retained_buffer s2.processed_len
                    st.start_byte f.pge with
                | none => (.stuck, { st with input := s2, scans := scans' })
                | some pge' =>
                  let st := { st with
                    input := { s2 with retained_buffer := [] }
                    scans := scans'
                    format := some { f with pge := pge' } }
                  match decode_scan_model st with
                  | (.ok _, st2) =>
                    decode_internal_loop fuel marker
                      { st2 with n_scan_processed := st2.n_scan_processed + 1 }
                  | (.err e, st2) => (.err e, st2)
                  | (.stuck, st2) => (.stuck, st2)
              | none => (.stuck, { st with input := s2, scans := scans' })
            else
              let st := { st with
                input := { s2 with retained_buffer := [] }
                scans := scans' }
              match (if st.format.isSome then decode_scan_model st
                  else (.ok (), st)) with
              | (.ok _, st2) =>
                decode_internal_loop fuel marker
                  { st2 with n_scan_processed := st2.n_scan_processed + 1 }
              | (.err e, st2) => (.err e, st2)
              | (.stuck, st2) => (.stuck, st2)
          | (.err e, s2) => (.err e, { st with input := s2 })
          | (.stuck, s2) => (.stuck, { st with input := s2 })
      | .DQT =>
        match read_segment st.input with
        | (.ok _, s2) =>
          decode_internal_loop fuel marker { st with input := s2 }
        | (.err e, s2) => (.err e, { st with input := s2 })
        | (.stuck, s2) => (.stuck, { st with input := s2 })
      | .DHT =>
        match read_segment st.input with
        | (.ok _, s2) =>
          decode_internal_loop fuel marker { st with input := s2 }
        | (.err e, s2) => (.err e, { st with input := s2 })
        | (.stuck, s2) => (.stuck, { st with input := s2 })
      | .DAC => (.err (.unsupported .arithmeticEntropyCoding), st)
      | .DRI =>
        match parse_dri st.input with
        | (.ok interval, s2) =>
          decode_internal_loop fuel marker
            { st with input := s2, restart_interval := interval }
        | (.err e, s2) => (.err e, { st with input := s2 })
        | (.stuck, s2) => (.stuck, { st with input := s2 })
      | .COM =>
        match read_segment st.input with
        | (.ok _, s2) =>
          decode_internal_loop fuel marker { st with input := s2 }
        | (.err e, s2) => (.err e, { st with input := s2 })
        | (.stuck, s2) => (.stuck, { st with input := s2 })
      | .APP n =>
        match parse_app st.input n with
        | (.ok mjpeg, s2) =>
          decode_internal_loop fuel marker
            { st with input := s2, is_mjpeg := mjpeg }
        | (.err e, s2) => (.err e, { st with input := s2 })
        | (.stuck, s2) => (.stuck, { st with input := s2 })
      | .RST _ =>
        if prev ≠ .SOS then
          (.err (.malformatted "RST found outside of entropy-coded data"), st)
        else
          decode_internal_loop fuel marker st
      | .DNL =>
        if prev ≠ .SOS ∨ st.n_scan_processed ≠ 1 then
          (.err (.malformatted
            "DNL is only allowed immediately after the first scan"), st)
        else (.err (.unsupported .dnl), st)
      | .DHP => (.err (.unsupported .hierarchical), st)
      | .EXP => (.err (.unsupported .hierarchical), st)
      | .EOI => (.ok (), st)
      | _ =>
        -- The Rust message interpolates the marker's debug name.
        (.err (.malformatted "marker found where not allowed"), st)
    | (.err e, s1) => (.err e, { st with input := s1 })
    | (.stuck, s1) => (.stuck, { st with input := s1 })

/-- `JpegDecoder::decode_internal` (decoder.rs lines 102-268): SOI check
(with Rust short-circuit evaluation: the second byte is only read when the
first is `0xFF`), then the marker loop. -/
def decode_internal (fuel : Nat) (st : DecState) : DRes Unit × DecState :=
  match read_byteJ st.input true with
  | (.ok b1, s1) =>
    if b1 ≠ 0xFF then
      (.err (.malformatted "first two bytes is not a SOI marker"),
        { st with input := s1 })
    else
      match read_byteJ s1 true with
      | (.ok b2, s2) =>
        if Marker.from_u8 b2 ≠ some .SOI then
          (.err (.malformatted "first two bytes is not a SOI marker"),
            { st with input := s2 })
        else decode_internal_loop fuel .SOI { st with input := s2 }
      | (.err e, s2) => (.err e, { st with input := s2 })
      | (.stuck, s2) => (.stuck, { st with input := s2 })
  | (.err e, s1) => (.err e, { st with input := s1 })
  | (.stuck, s1) => (.stuck, { st with input := s1 })

/-- The post-loop flush of `decode` (decoder.rs lines 85-94): `abort()` the
stream, then — when format is present — extend `grb` with the retained
bytes, resize `grb` by `input.len()` (the *queue* length) and fill the new
tail with a `fill = true` read through the wrapper.  The `.unwrap()` on
that read panics on error (`stuck`). -/
def decode_finalize (fmt : Option FormatInfoG) (s : InputStream) :
    DRes (Option FormatInfoG) × InputStream :=
  let sA := { s with istream := { s.istream with aborted := true } }
  match fmt with
  | some f =>
    let grb1 := f.grb ++ sA.retained_buffer
    match sA.read sA.istream.data.length true false with
    | (.ok bytes, s2) => (.ok (some { f with grb := grb1 ++ bytes }), s2)
    | (.err _, s2) => (.stuck, s2)
    | (.blocked, s2) => (.stuck, s2)
    | (.panicked, s2) => (.stuck, s2)
  | none => (.ok none, sA)

/-- The tail of `decode` (decoder.rs lines 85-100): flush, `close()` the
stream, and assemble the `Jpeg` (`frame.unwrap()` panics when no frame was
installed). -/
def decode_tail (st : DecState) : DRes Jpeg × DecState :=
  match decode_finalize st.format st.input with
  | (.ok fmt2, s2) =>
    let s3 := { s2 with
      istream := { s2.istream with aborted := true, reader_closed := true } }
    match st.frame with
    | some fr =>
      (.ok { frame := fr, scans := st.scans, format := fmt2 },
        { st with input := s3, format := fmt2 })
    | none => (.stuck, { st with input := s3, format := fmt2 })
  | (.err e, s2) => (.err e, { st with input := s2 })
  | (.stuck, s2) => (.stuck, { st with input := s2 })

/-- The `Err(JpegError::EOF)` arm of `decode` (decoder.rs lines 65-82),
followed by the shared tail when the EOF is recoverable. -/
def decode_eof_case (st1 : DecState) : DRes Jpeg × DecState :=
  match st1.format with
  | some f =>
    if st1.input.processed_len < st1.start_byte then
      (.err (.malformatted "EOF encountered before start_byte"), st1)
    else if f.handoff.isEmpty then
      (.err (.malformatted "no/insufficient entropy encoded data"), st1)
    else
      match st1.scans.getLast? with
      | none => (.stuck, st1)
      | some sc =>
        if scan_is_empty sc then
          decode_tail { st1 with scans := st1.scans.dropLast }
        else decode_tail st1
  | none => (.err (.malformatted "incomplete header"), st1)

/-- `JpegDecoder::decode` (decoder.rs lines 55-100). -/
def decode (fuel : Nat) (st0 : DecState) : DRes Jpeg × DecState :=
  let st := { st0 with
    format := if st0.header_only then none else some ⟨[], [], []⟩ }
  match decode_internal fuel st with
  | (.ok _, st1) => decode_tail st1
  | (.err .eof, st1) => decode_eof_case st1
  | (.err e, st1) => (.err e, st1)
  | (.stuck, st1) => (.stuck, st1)

/-- `JpegDecoder::new` (decoder.rs lines 40-53) over a fresh stream holding
`bytes` with EOF written: `start_byte` is forced to 0 in header-only mode. -/
def JpegDecoder_new (bytes : List Nat) (cap start_byte : Nat)
    (header_only : Bool) : DecState :=
  { input := init_input bytes cap
    frame := none
    scans := []
    format := none
    restart_interval := 0
    is_mjpeg := false
    n_scan_processed := 0
    header_only := header_only
    start_byte := if header_only then 0 else start_byte }

/-- End-to-end run of the decoder on a byte list. -/
def decodeRun (bytes : List Nat) (cap start_byte : Nat) (header_only : Bool)
    (fuel : Nat) : DRes Jpeg :=
  (decode fuel (JpegDecoder_new bytes cap start_byte header_only)).fst


/-! ## Claim C2: early EOF before a frame -/

/-- C2, counterexample.  The claim asserts that for the two-byte input
`FF D8` decode returns `Malformatted("incomplete header")` *regardless of
whether header-only mode was requested*.  In full mode (`header_only =
false`, `start_byte = 0`) the decoder's EOF handler sees `format = Some`,
`processed_len = 2 ≥ start_byte` and an empty handoff list, and returns
`Malformatted("no/insufficient entropy encoded data")` instead.  The
pre-load capacity is 1 so that every pull from the queue fills the whole
pre-load slice and `StreamBuffer::read` does not panic. -/
theorem c2_counterexample :
    decodeRun [0xFF, 0xD8] 1 0 false 50 =
      .err (.malformatted "no/insufficient entropy encoded data") ∧
    decodeRun [0xFF, 0xD8] 1 0 false 50 ≠
      .err (.malformatted "incomplete header") := by
  decide

/-- C2, amended.  When the byte stream ends before any SOF frame is
installed, the EOF reaches decode's top level, and:
in header-only mode (`format = None`) the result is
`Malformatted("incomplete header")`; in full mode with
`processed_len ≥ start_byte` and no recorded handoff the result is
`Malformatted("no/insufficient entropy encoded data")`
(and with `processed_len < start_byte`,
`Malformatted("EOF encountered before start_byte")`, see `decode_eof_case`). -/
theorem c2_amended (fuel : Nat) (st0 st1 : DecState) (f : FormatInfoG) :
    (decode_internal fuel
        { st0 with
          format := if st0.header_only then none else some ⟨[], [], []⟩ } =
        (.err .eof, st1) →
      st1.format = none →
      decode fuel st0 = (.err (.malformatted "incomplete header"), st1)) ∧
    (decode_internal fuel
        { st0 with
          format := if st0.header_only then none else some ⟨[], [], []⟩ } =
        (.err .eof, st1) →
      st1.format = some f →
      f.handoff = [] →
      st1.start_byte ≤ st1.input.processed_len →
      decode fuel st0 =
        (.err (.malformatted "no/insufficient entropy encoded data"), st1)) := by
  constructor
  · intro hint hfmt
    unfold decode
    dsimp only
    rw [hint]
    dsimp only
    unfold decode_eof_case
    rw [hfmt]
  · intro hint hfmt hhand hps
    unfold decode
    dsimp only
    rw [hint]
    dsimp only
    unfold decode_eof_case
    rw [hfmt]
    dsimp only
    rw [if_neg (by omega), hhand]
    rfl

/-- The decoder state after the early-EOF run on `FF D8` with pre-load
capacity 1. -/
def c2state (ho : Bool) : DecState :=
  { input := ⟨⟨[], 0, true, false, false⟩, ⟨[216], 1, 1⟩, [255, 216], 2⟩
    frame := none
    scans := []
    format := if ho then none else some ⟨[], [], []⟩
    restart_interval := 0
    is_mjpeg := false
    n_scan_processed := 0
    header_only := ho
    start_byte := 0 }

/-- C2, witness for `c2_amended` on the concrete input `FF D8` in both
modes. -/
theorem c2_amended_witness :
    decode 50 (JpegDecoder_new [0xFF, 0xD8] 1 0 true) =
      (.err (.malformatted "incomplete header"), c2state true) ∧
    decode 50 (JpegDecoder_new [0xFF, 0xD8] 1 0 false) =
      (.err (.malformatted "no/insufficient entropy encoded data"),
        c2state false) :=
  ⟨(c2_amended 50 (JpegDecoder_new [0xFF, 0xD8] 1 0 true) (c2state true)
      ⟨[], [], []⟩).1 (by decide) (by decide),
   (c2_amended 50 (JpegDecoder_new [0xFF, 0xD8] 1 0 false) (c2state false)
      ⟨[], [], []⟩).2 (by decide) (by decide) rfl (by decide)⟩

/-! ## Claim C4: grb after a successful decode -/

/-- A minimal stream that decodes without truncation: SOI, a baseline SOF
for an 8×8 single-component frame, EOI, then one trailing byte `AB`. -/
def c4input : List Nat :=
  [0xFF, 0xD8, 0xFF, 0xC0, 0x00, 0x0B, 0x08, 0x00, 0x08, 0x00, 0x08,
   0x01, 0x01, 0x11, 0x00, 0xFF, 0xD9, 0xAB]

/-- The grb the decoder actually produces on `c4input` with a pre-load
capacity of 9 (a capacity every pull of this stream can fill, so that
`StreamBuffer::read` never panics): every byte retained since the start
(the whole header and the EOI marker, read with `keep = true`), and *not*
the post-EOI byte `AB`, which is stranded in the pre-load buffer when
`input.len()` (the queue length) is 0. -/
def c4grb : List Nat :=
  [0xFF, 0xD8, 0xFF, 0xC0, 0x00, 0x0B, 0x08, 0x00, 0x08, 0x00, 0x08,
   0x01, 0x01, 0x11, 0x00, 0xFF, 0xD9]

/-- C4, counterexample.  The claim asserts that on a successful
non-truncated decode `format.grb` contains exactly the bytes strictly after
the EOI marker (here `[AB]`).  On `c4input` the decode succeeds with
`grb = c4grb`: it contains the SOI/SOF/EOI bytes retained since the last
`clear_retained_data` and misses `AB` entirely. -/
theorem c4_counterexample :
    decodeRun c4input 9 0 false 100 =
      .ok ⟨⟨true, false, .baseline, .huffman, 8, 8, 8, [⟨1, 1, 1, 0⟩]⟩, [],
        some ⟨[], c4grb, []⟩⟩ ∧
    c4grb ≠ [0xAB] ∧ (0xAB : Nat) ∉ c4grb := by
  decide


set_option maxHeartbeats 1000000 in
/-- A `fill = true` wrapper read of exactly the queue length, in the cases
where `StreamBuffer::read` does not panic — the queue is empty, the
pre-load buffer already holds enough bytes, or the queue holds exactly one
pre-load capacity — returns the first `|Q|` bytes of
(pre-load contents ++ queue): any bytes beyond that prefix that sit in the
pre-load buffer are not part of the result. -/
theorem InputStream.read_whole_queue (s : InputStream)
    (hcl : s.istream.reader_closed = false)
    (hcap : s.istream.data.length ≤ s.pre_load_buffer.capacity)
    (hwf1 : s.pre_load_buffer.read_offset ≤ s.pre_load_buffer.write_offset)
    (hwf2 : s.pre_load_buffer.write_offset ≤ s.pre_load_buffer.data.length)
    (hok : s.istream.data.length = 0 ∨
      s.istream.data.length ≤ s.pre_load_buffer.data_len ∨
      s.istream.data.length = s.pre_load_buffer.capacity) :
    (s.read s.istream.data.length true false).fst =
      .ok ((s.pre_load_buffer.data_slice_all ++ s.istream.data).take
        s.istream.data.length) := by
  rcases s with ⟨⟨q, t, e, a, rc⟩, ⟨pdata, w, r⟩, ret, pl⟩
  simp only at hcl hcap hwf1 hwf2
  subst hcl
  have hcap' : q.length ≤ pdata.length := hcap
  have hok' : q.length = 0 ∨ q.length ≤ w - r ∨ q.length = pdata.length := hok
  unfold InputStream.read InputStream.read_internal PreBuffer.data_len
    PreBuffer.capacity PreBuffer.data_slice PreBuffer.data_slice_all
    PreBuffer.consumeB IoStream.read_internal StreamBuffer.validate_for_read
    StreamBuffer.readBuf StreamBuffer.consume
  simp only [Bool.true_and, Bool.or_eq_true, Bool.and_eq_true,
    decide_eq_true_eq, List.isEmpty_iff_length_eq_zero]
  split_ifs <;> simp_all <;> try omega
  all_goals
    have hA : (List.take (w - r) (List.drop r pdata)).length = w - r := by
      simp only [List.length_take, List.length_drop]
      omega
  · -- 0 < pa < |q| = capacity: the pre-load slice plus |q| − pa queue bytes
    rw [List.take_of_length_le (by omega : q.length ≤ pdata.length),
      List.take_append_eq_append_take, hA,
      List.take_of_length_le (by omega : (List.take (w - r)
        (List.drop r pdata)).length ≤ q.length)]
  · -- pa = 0 and |q| = capacity: the whole queue
    rw [List.take_take, Nat.min_self]
    exact List.take_of_length_le (by omega)
  · -- pa = |q|: exactly the pre-load slice
    rw [List.take_append_eq_append_take, hA,
      List.take_of_length_le (le_of_eq hA)]
    simp
  · -- pa > |q|: the first |q| bytes of the pre-load slice
    rw [List.take_append_eq_append_take, List.take_take, hA]
    have h1 : min q.length (w - r) = q.length := by omega
    have h2 : q.length - (w - r) = 0 := by omega
    rw [h1, h2]
    simp

set_option maxHeartbeats 1000000 in
/-- A `fill = true` wrapper read of exactly the queue length panics when
the pre-load buffer cannot serve it and the queue is strictly shorter than
the pre-load capacity: the pull passes the whole pre-load backing array to
`StreamBuffer::read`, whose `clone_from_slice` (iostream.rs:483) rejects
the length mismatch on the contiguous queue. -/
theorem InputStream.read_whole_queue_panics (s : InputStream)
    (hcl : s.istream.reader_closed = false)
    (hpa : s.pre_load_buffer.data_len < s.istream.data.length)
    (hlt : s.istream.data.length < s.pre_load_buffer.capacity) :
    (s.read s.istream.data.length true false).fst = .panicked := by
  rcases s with ⟨⟨q, t, e, a, rc⟩, ⟨pdata, w, r⟩, ret, pl⟩
  simp only at hcl hpa hlt
  subst hcl
  have hpa' : w - r < q.length := hpa
  have hlt' : q.length < pdata.length := hlt
  unfold InputStream.read InputStream.read_internal PreBuffer.data_len
    PreBuffer.capacity PreBuffer.data_slice
    PreBuffer.consumeB IoStream.read_internal StreamBuffer.validate_for_read
    StreamBuffer.readBuf StreamBuffer.consume
  simp only [Bool.true_and, Bool.or_eq_true, Bool.and_eq_true,
    decide_eq_true_eq, List.isEmpty_iff_length_eq_zero]
  split_ifs <;> simp_all <;> omega

/-- C4, amended.  After the marker loop terminates at EOI, the post-loop
flush (decoder.rs lines 85-94): when the queue is empty, already covered by
the pre-load buffer, or exactly one pre-load capacity long, it produces
`grb = grb₀ ++ retained ++ (preload ++ Q).take |Q|` — the bytes retained
since the last `clear_retained_data`, which include the EOI marker bytes
and any stray/fill bytes read by the final `read_marker`, followed by the
first `|Q|` bytes of the pre-load buffer and queue, so `grb` contains the
EOI marker rather than starting after it, and post-EOI bytes beyond that
prefix are dropped.  When instead the pre-load buffer cannot serve the
read and `|Q|` is strictly below the pre-load capacity, the flush itself
panics in `StreamBuffer::read` (iostream.rs:483). -/
theorem c4_amended (f : FormatInfoG) (s : InputStream)
    (hcl : s.istream.reader_closed = false)
    (hcap : s.istream.data.length ≤ s.pre_load_buffer.capacity)
    (hwf1 : s.pre_load_buffer.read_offset ≤ s.pre_load_buffer.write_offset)
    (hwf2 : s.pre_load_buffer.write_offset ≤ s.pre_load_buffer.data.length) :
    ((s.istream.data.length = 0 ∨
        s.istream.data.length ≤ s.pre_load_buffer.data_len ∨
        s.istream.data.length = s.pre_load_buffer.capacity) →
      (decode_finalize (some f) s).fst =
        .ok (some { f with grb := (f.grb ++ s.retained_buffer ++
          (s.pre_load_buffer.data_slice_all ++ s.istream.data).take
            s.istream.data.length) })) ∧
    (s.pre_load_buffer.data_len < s.istream.data.length →
      s.istream.data.length < s.pre_load_buffer.capacity →
      (decode_finalize (some f) s).fst = .stuck) := by
  constructor
  · intro hok
    have h := InputStream.read_whole_queue
      { s with istream := { s.istream with aborted := true } }
      hcl hcap hwf1 hwf2 hok
    unfold decode_finalize
    dsimp only
    rcases hE : InputStream.read
        { s with istream := { s.istream with aborted := true } }
        s.istream.data.length true false with ⟨res, s2⟩
    rw [hE] at h
    dsimp only at h
    subst h
    dsimp only
  · intro hpa hlt
    have h := InputStream.read_whole_queue_panics
      { s with istream := { s.istream with aborted := true } }
      hcl hpa hlt
    unfold decode_finalize
    dsimp only
    rcases hE : InputStream.read
        { s with istream := { s.istream with aborted := true } }
        s.istream.data.length true false with ⟨res, s2⟩
    rw [hE] at h
    dsimp only at h
    subst h
    dsimp only

/-- C4, witness for `c4_amended` on a concrete state: the flush keeps only
the first `|Q| = 1` byte of the two pre-loaded bytes `5, 6` and drops both
the second pre-loaded byte and the queue byte `7`; the retained byte `9`
precedes it. -/
theorem c4_amended_witness :
    (decode_finalize (some ⟨[], [1], []⟩)
        ⟨⟨[7], 0, true, false, false⟩, ⟨[5, 6, 0, 0], 2, 0⟩, [9], 4⟩).fst =
      .ok (some ⟨[], [1, 9, 5], []⟩) := by
  have h := (c4_amended ⟨[], [1], []⟩
    ⟨⟨[7], 0, true, false, false⟩, ⟨[5, 6, 0, 0], 2, 0⟩, [9], 4⟩
    (by decide) (by decide) (by decide) (by decide)).1 (by decide)
  simpa using h

end Lepton
